import Mathlib

/- Shallow embedding of the personal MCP server (src/index.ts).

   The server registers six resources (greeting://{name}, principles://core,
   standards://language/{languageName}, rules://claude.md,
   templates://prp_base.md, examples://{exampleName}) and two prompts
   (generate-prp, execute-prp), and exposes them over a single HTTP endpoint
   whose POST handler builds a fresh server per request; GET and DELETE are
   rejected.  File system access (fs.promises.readFile / readdir) is modelled
   by an explicit `FS` record mapping resolved paths to optional contents;
   a handler that lets a read failure escape (no try/catch) is modelled as
   returning `none` (the thrown error propagates to the dispatcher).  Paths
   are modelled as lists of segments relative to the process working
   directory; `joinPath` mirrors Node's path.join (concatenate, then resolve
   "..", "." and empty segments), which is also what the OS does when the
   path is opened. -/

/-- One entry of the `contents` array returned by a resource handler:
    a source URI, a text body, and an optional mimeType field (handlers that
    omit the field leave it `none`, falling back to registration metadata). -/
structure ContentItem where
  uri : String
  text : String
  mimeType : Option String
deriving Repr, DecidableEq

/-- One entry of the `messages` array returned by a prompt handler. -/
structure PromptMessage where
  role : String
  text : String
deriving Repr, DecidableEq

/-- The file system visible to the server process: `read` models
    fs.promises.readFile (utf-8, `none` = the promise rejects), `readdir`
    models fs.promises.readdir. Paths are segment lists relative to
    process.cwd(). -/
structure FS where
  read : List String → Option String
  readdir : List String → Option (List String)

/-- A value captured for a template placeholder by the routing layer: either
    a single string or a multi-value sequence (modelled non-empty, as the
    router produces at least one value per matched placeholder). -/
inductive Capture where
  | str : String → Capture
  | arr : String → List String → Capture
deriving Repr, DecidableEq

/-- JavaScript string conversion of a capture, as performed by a template
    literal: a string interpolates as itself, an array as its comma-joined
    elements. -/
def jsToString : Capture → String
  | .str s => s
  | .arr hd tl => String.intercalate "," (hd :: tl)

/-- The first element of a multi-value capture (the `languageName[0]`
    normalization); a single string is returned unchanged. -/
def captureFirst : Capture → String
  | .str s => s
  | .arr hd _ => hd

/-- Split a list of characters at every slash. -/
def splitSegsAux (cur : List Char) : List Char → List (List Char)
  | [] => [cur.reverse]
  | c :: rest =>
    if c = '/' then cur.reverse :: splitSegsAux [] rest
    else splitSegsAux (c :: cur) rest

/-- Split a string into path segments at every slash. -/
def splitSlash (s : String) : List String :=
  (splitSegsAux [] s.data).map (fun l => ⟨l⟩)

/-- Resolve a list of raw segments against a base path: empty and dot
    segments are dropped, a dot-dot segment removes the last base segment
    (clamped at the root), anything else is appended. -/
def resolveSegs (base : List String) : List String → List String
  | [] => base
  | seg :: rest =>
    if seg = "" ∨ seg = "." then resolveSegs base rest
    else if seg = ".." then resolveSegs base.dropLast rest
    else resolveSegs (base ++ [seg]) rest

/-- Node's path.join of a base directory and one further (possibly
    multi-segment) component, followed by the normalization path.join and
    the OS apply to "..", "." and empty segments. -/
def joinPath (base : List String) (name : String) : List String :=
  resolveSegs base (splitSlash name)

/-- ASCII lower-casing of a string, character by character (the behaviour of
    JavaScript's toLowerCase on the ASCII range). -/
def toLowerStr (s : String) : String := ⟨s.data.map Char.toLower⟩

/-- The process working directory, the root all served paths are resolved
    against. -/
def cwd : List String := []

/-- Handler of greeting://{name}: a fixed greeting interpolating the raw
    captured value (no first-of-array normalization here). -/
def greetingHandler (uriHref : String) (name : Capture) : List ContentItem :=
  [{ uri := uriHref,
     text := "Hello, " ++ jsToString name ++ "! This is your personal MCP server.",
     mimeType := none }]

/-- The fixed markdown block served by principles://core. -/
def corePrinciplesText : String :=
  "## Core Principles\n\n- **Consistency First**: All code should follow established patterns and standards\n- **Object-Oriented Preference**: Favor OOP design patterns unless functional programming is more appropriate for the specific use case\n- **Self-Documenting Code**: Write code that explains itself through clear naming and structure\n- **Containerized Development**: All projects should be Docker-ready from the start\n- **Maintainability**: Code should be easy to read, modify, and extend"

/-- Handler of principles://core. -/
def corePrinciplesHandler (uriHref : String) : List ContentItem :=
  [{ uri := uriHref, text := corePrinciplesText, mimeType := none }]

/-- The path resolved by the standards handler:
    path.join(process.cwd(), "standards", lowerLang + ".md"). -/
def standardsFilePath (lowerLang : String) : List String :=
  joinPath (cwd ++ ["standards"]) (lowerLang ++ ".md")

/-- Handler of standards://language/{languageName}: takes the first value of
    a multi-value capture, lower-cases it, reads standards/(lowered).md; on
    success the file text is returned as markdown, on failure a fixed
    not-found sentence interpolating the (non-lowered) name as plain text. -/
def standardsHandler (fs : FS) (uriHref : String) (languageName : Capture) :
    List ContentItem :=
  let lang := captureFirst languageName
  let filePath := standardsFilePath (toLowerStr lang)
  match fs.read filePath with
  | some standardsText =>
      [{ uri := uriHref, text := standardsText, mimeType := some "text/markdown" }]
  | none =>
      [{ uri := uriHref,
         text := "No specific coding standards found for '" ++ lang ++ "'.",
         mimeType := some "text/plain" }]

/-- The fixed path read by rules://claude.md. -/
def claudeMdPath : List String := cwd ++ ["context-template", "CLAUDE.md"]

/-- Handler of rules://claude.md: reads a fixed path with no try/catch, so a
    failed read propagates (`none`); on success the file text is returned
    (the content item itself carries no mimeType field). -/
def claudeRulesHandler (fs : FS) (uriHref : String) : Option (List ContentItem) :=
  match fs.read claudeMdPath with
  | none => none
  | some fileContent => some [{ uri := uriHref, text := fileContent, mimeType := none }]

/-- The fixed path read by templates://prp_base.md and by the generate-prp
    prompt. -/
def prpTemplatePath : List String :=
  cwd ++ ["context-template", "PRPs", "templates", "prp_base.md"]

/-- Handler of templates://prp_base.md: reads a fixed path with no
    try/catch, so a failed read propagates (`none`). -/
def prpBaseHandler (fs : FS) (uriHref : String) : Option (List ContentItem) :=
  match fs.read prpTemplatePath with
  | none => none
  | some fileContent => some [{ uri := uriHref, text := fileContent, mimeType := none }]

/-- The examples directory: path.join(process.cwd(), "context-template",
    "examples"). -/
def examplesDir : List String := cwd ++ ["context-template", "examples"]

/-- Handler of examples://{exampleName}. A multi-value capture is not
    normalized: it never equals the string token "list" and the following
    path.join raises a TypeError on a non-string argument (outside the
    try/catch), so the request fails (`none`).  For a string capture equal
    to "list", the directory is listed as a markdown bullet list (readdir is
    not wrapped in try/catch, so its failure propagates); for any other
    string its file is read, returning the content as plain text or a
    plain-text not-found sentence. -/
def examplesHandler (fs : FS) (uriHref : String) (exampleName : Capture) :
    Option (List ContentItem) :=
  match exampleName with
  | .arr _ _ => none
  | .str name =>
    if name = "list" then
      match fs.readdir examplesDir with
      | none => none
      | some files =>
          some [{ uri := uriHref,
                  text := "Available examples:\n" ++
                    String.intercalate "\n" (files.map (fun file => "- " ++ file)),
                  mimeType := some "text/markdown" }]
    else
      match fs.read (joinPath examplesDir name) with
      | some fileContent =>
          some [{ uri := uriHref, text := fileContent, mimeType := some "text/plain" }]
      | none =>
          some [{ uri := uriHref,
                  text := "Example '" ++ name ++ "' not found.",
                  mimeType := some "text/plain" }]

/-- ECMAScript GetSubstitution for a string-pattern replace with no capture
    groups: in the replacement text, a dollar-dollar pair expands to one
    dollar sign, dollar-ampersand to the matched text, dollar-backquote to
    the part of the searched string before the match and dollar-quote to
    the part after it; every other character is copied verbatim (a trailing
    lone dollar sign, and dollar before any other character, are literal;
    numbered and named references fall through to literal copies when there
    are no capture groups). -/
def getSubstitution (matched before after : List Char) : List Char → List Char
  | [] => []
  | [c] => [c]
  | c :: d :: rest =>
    if c = '$' then
      if d = '$' then '$' :: getSubstitution matched before after rest
      else if d = '&' then matched ++ getSubstitution matched before after rest
      else if d = Char.ofNat 96 then before ++ getSubstitution matched before after rest
      else if d = Char.ofNat 39 then after ++ getSubstitution matched before after rest
      else c :: getSubstitution matched before after (d :: rest)
    else c :: getSubstitution matched before after (d :: rest)

/-- JavaScript String.prototype.replace with a string pattern, on character
    lists: at the first occurrence of `pat` the GetSubstitution expansion of
    `repl` is inserted in its place; with no occurrence the input is
    unchanged (an empty pattern matches at the front). `pre` holds the
    already scanned characters in reverse, so the expansion can refer to the
    text before the match. -/
def replaceFirstFrom (pat repl : List Char) (pre : List Char) : List Char → List Char
  | [] =>
    if pat.isPrefixOf ([] : List Char) then getSubstitution pat pre.reverse [] repl
    else []
  | c :: rest =>
    if pat.isPrefixOf (c :: rest) then
      getSubstitution pat pre.reverse ((c :: rest).drop pat.length) repl ++
        (c :: rest).drop pat.length
    else c :: replaceFirstFrom pat repl (c :: pre) rest

/-- JavaScript s.replace(pat, repl) for string arguments: only the first
    occurrence is replaced, and repl undergoes GetSubstitution expansion. -/
def replaceFirst (s pat repl : String) : String :=
  ⟨replaceFirstFrom pat.data repl.data [] s.data⟩

/-- Whether `pat` occurs as a contiguous sublist of `l`. -/
def containsSub (pat : List Char) : List Char → Bool
  | [] => pat.isPrefixOf ([] : List Char)
  | c :: rest => pat.isPrefixOf (c :: rest) || containsSub pat rest

/-- The placeholder phrase the generate-prp prompt substitutes. -/
def placeholderPhrase : String :=
  "[What needs to be built - be specific about the end state and desires]"

/-- The generate-prp prompt handler: reads the base template (no try/catch,
    failure propagates), replaces the first occurrence of the placeholder
    phrase with the caller's initialContent, and wraps the result in one
    user-role message. -/
def generatePrp (fs : FS) (initialContent : String) : Option (List PromptMessage) :=
  match fs.read prpTemplatePath with
  | none => none
  | some templateContent =>
      some [{ role := "user",
              text := replaceFirst templateContent placeholderPhrase initialContent }]

/-- The fixed instructional text composed by the execute-prp prompt around
    the caller's prpContent. -/
def executionInstructions (prpContent : String) : String :=
  "\n# Execute BASE PRP\n\nImplement a feature using using the PRP file.\n\n## PRP File: \n\n" ++
  prpContent ++
  "\n\n## Execution Process\n\n1. **Load PRP**\n   - Read the specified PRP file\n   - Understand all context and requirements\n   - Follow all instructions in the PRP and extend the research if needed\n   - Ensure you have all needed context to implement the PRP fully\n   - Do more web searches and codebase exploration as needed\n\n2. **ULTRATHINK**\n   - Think hard before you execute the plan. Create a comprehensive plan addressing all requirements.\n   - Break down complex tasks into smaller, manageable steps using your todos tools.\n   - Use the TodoWrite tool to create and track your implementation plan.\n   - Identify implementation patterns from existing code to follow.\n\n3. **Execute the plan**\n   - Execute the PRP\n   - Implement all the code\n\n4. **Validate**\n   - Run each validation command\n   - Fix any failures\n   - Re-run until all pass\n\n5. **Complete**\n   - Ensure all checklist items done\n   - Run final validation suite\n   - Report completion status\n   - Read the PRP again to ensure you have implemented everything\n\n6. **Reference the PRP**\n   - You can always reference the PRP again if needed\n\nNote: If validation fails, use error patterns in PRP to fix and retry.\n      "

/-- The execute-prp prompt handler: pure string composition, no file I/O. -/
def executePrp (prpContent : String) : List PromptMessage :=
  [{ role := "user", text := executionInstructions prpContent }]

/-- A request routed to one of the registered resources or prompts. -/
inductive McpRequest where
  | readGreeting (uri : String) (name : Capture)
  | readCorePrinciples (uri : String)
  | readStandards (uri : String) (languageName : Capture)
  | readClaudeRules (uri : String)
  | readPrpBase (uri : String)
  | readExample (uri : String) (exampleName : Capture)
  | promptGeneratePrp (initialContent : String)
  | promptExecutePrp (prpContent : String)

/-- The successful payload of a handled request. -/
inductive McpResult where
  | resource (contents : List ContentItem)
  | prompt (messages : List PromptMessage)
deriving Repr, DecidableEq

/-- One full request handling: getServer() builds the registries afresh,
    the request is routed to its handler, and the handler's value (or the
    error it lets escape, `none`) becomes the response.  The function of
    (file system, request) is total and pure because the source keeps no
    module-level mutable state: every run rebuilds the same registries. -/
def handleOne (fs : FS) : McpRequest → Option McpResult
  | .readGreeting uri name => some (.resource (greetingHandler uri name))
  | .readCorePrinciples uri => some (.resource (corePrinciplesHandler uri))
  | .readStandards uri languageName => some (.resource (standardsHandler fs uri languageName))
  | .readClaudeRules uri => (claudeRulesHandler fs uri).map .resource
  | .readPrpBase uri => (prpBaseHandler fs uri).map .resource
  | .readExample uri exampleName => (examplesHandler fs uri exampleName).map .resource
  | .promptGeneratePrp initialContent => (generatePrp fs initialContent).map .prompt
  | .promptExecutePrp prpContent => some (.prompt (executePrp prpContent))

/-- Two consecutive POSTs against the same (unchanged) file system: each one
    gets its own freshly constructed transport and server, exactly as the
    stateless dispatcher does per request. -/
def handleSequential (fs : FS) (req₁ req₂ : McpRequest) :
    Option McpResult × Option McpResult :=
  let firstResponse := handleOne fs req₁
  let secondResponse := handleOne fs req₂
  (firstResponse, secondResponse)

/-- Outcome of the POST /mcp dispatcher for one request. -/
inductive PostOutcome where
  | handled
  | errorEnvelope (status : Nat) (jsonrpc : String) (code : Int) (message : String)
      (idNull : Bool)
  | suppressed
deriving Repr, DecidableEq

/-- The try/catch around POST /mcp handling: a completed handleRequest is
    passed through; a thrown error is answered with the fixed 500 envelope
    when no headers were sent yet, and swallowed otherwise. -/
def handlePost (result : Except Unit Unit) (headersSent : Bool) : PostOutcome :=
  match result with
  | .ok _ => .handled
  | .error _ =>
      if headersSent then .suppressed
      else .errorEnvelope 500 "2.0" (-32603) "Internal server error" true

/-- An HTTP reply from the non-POST verb handlers: either some success body
    or a serialized JSON-RPC error envelope. -/
inductive HttpReply where
  | success (status : Nat) (body : String)
  | rpcError (status : Nat) (code : Int) (message : String) (idNull : Bool)
deriving Repr, DecidableEq

/-- The GET /mcp handler: unconditionally a 405 with the fixed envelope. -/
def handleGetMcp (_req : Unit) : HttpReply :=
  .rpcError 405 (-32000) "Method not allowed." true

/-- The DELETE /mcp handler: unconditionally a 405 with the fixed
    envelope. -/
def handleDeleteMcp (_req : Unit) : HttpReply :=
  .rpcError 405 (-32000) "Method not allowed." true

/-- A file system holding only standards/go.md, for concrete evaluation. -/
def goFs : FS :=
  { read := fun p => if p = ["standards", "go.md"] then some "# Go Standards" else none,
    readdir := fun _ => none }

/-- A file system on which every read and every listing fails. -/
def emptyFs : FS :=
  { read := fun _ => none, readdir := fun _ => none }

/-- A file system with a two-entry examples directory and one example file,
    for concrete evaluation. -/
def listFs : FS :=
  { read := fun p =>
      if p = ["context-template", "examples", "demo.ts"] then some "export const x = 1"
      else none,
    readdir := fun p => if p = examplesDir then some ["a.md", "b.md"] else none }

/-- A file system holding files outside the standards and examples
    directories, reachable only by path traversal. -/
def travFs : FS :=
  { read := fun p =>
      if p = ["secret.md"] then some "TOP SECRET"
      else if p = ["context-template", "esecret"] then some "EXAMPLE SECRET"
      else none,
    readdir := fun _ => none }

/-- A file system whose PRP base template contains the placeholder phrase
    once. -/
def prpFs : FS :=
  { read := fun p =>
      if p = prpTemplatePath then
        some "Goal: [What needs to be built - be specific about the end state and desires]\nDone."
      else none,
    readdir := fun _ => none }

/-- A file system whose PRP base template does not contain the placeholder
    phrase, and whose CLAUDE.md exists. -/
def noPhraseFs : FS :=
  { read := fun p =>
      if p = prpTemplatePath then some "A template without the phrase."
      else if p = claudeMdPath then some "# Claude Rules"
      else none,
    readdir := fun _ => none }

/-- A replacement text without any dollar sign expands to itself. -/
theorem getSubstitution_no_dollar (matched before after : List Char) :
    ∀ repl, (∀ x ∈ repl, x ≠ '$') →
      getSubstitution matched before after repl = repl
  | [], _ => rfl
  | [_], _ => rfl
  | c :: d :: rest, h => by
      have hc : ¬ c = '$' := h c (by simp)
      have ih := getSubstitution_no_dollar matched before after (d :: rest)
        (fun x hx => h x (List.mem_cons_of_mem c hx))
      simp [getSubstitution, hc, ih]

/-- A pattern that is a prefix of the text is replaced at the front. -/
theorem replaceFirstFrom_head_match (pat repl pre l : List Char)
    (h : pat.isPrefixOf l = true) :
    replaceFirstFrom pat repl pre l =
      getSubstitution pat pre.reverse (l.drop pat.length) repl ++
        l.drop pat.length := by
  cases l with
  | nil => simp [replaceFirstFrom, h]
  | cons c rest => simp [replaceFirstFrom, h]

/-- Replacement at the first occurrence: when the text splits as
    a ++ pat ++ b with no occurrence of pat starting inside a, the result is
    a, then the expansion of the replacement (seeing pat as the match, the
    scanned prefix and a as the text before, b as the text after), then b,
    all other characters untouched. -/
theorem replaceFirstFrom_first_occ (pat repl : List Char) :
    ∀ (a b pre : List Char),
      (∀ j, j < a.length → pat.isPrefixOf ((a ++ (pat ++ b)).drop j) = false) →
      replaceFirstFrom pat repl pre (a ++ (pat ++ b)) =
        a ++ (getSubstitution pat (pre.reverse ++ a) b repl ++ b)
  | [], b, pre, _ => by
      simp only [List.nil_append]
      rw [replaceFirstFrom_head_match pat repl pre (pat ++ b)
        (List.isPrefixOf_iff_prefix.mpr (List.prefix_append pat b)), List.drop_left]
      simp
  | c :: a', b, pre, h => by
      have h0 : pat.isPrefixOf (c :: (a' ++ (pat ++ b))) = false := by
        have := h 0 (by simp)
        simpa using this
      have h' : ∀ j, j < a'.length →
          pat.isPrefixOf ((a' ++ (pat ++ b)).drop j) = false := by
        intro j hj
        have := h (j + 1) (by simp only [List.length_cons]; omega)
        simpa using this
      have ih := replaceFirstFrom_first_occ pat repl a' b (c :: pre) h'
      simp [replaceFirstFrom, h0, ih, List.append_assoc]

/-- When the pattern occurs nowhere in the text, replacement is the
    identity. -/
theorem replaceFirstFrom_not_contains (pat repl : List Char) :
    ∀ (l pre : List Char), containsSub pat l = false →
      replaceFirstFrom pat repl pre l = l
  | [], pre, h => by
      simp only [containsSub] at h
      simp [replaceFirstFrom, h]
  | c :: rest, pre, h => by
      simp only [containsSub, Bool.or_eq_false_iff] at h
      have ih := replaceFirstFrom_not_contains pat repl rest (c :: pre) h.2
      simp [replaceFirstFrom, h.1, ih]

/-- C1: the standards://language/{languageName} handler lower-cases the
    captured name and reads standards/(lowered).md; a successful read is
    returned as the file text with markdown media type, a failed read still
    succeeds with exactly the not-found sentence interpolating the original
    (non-lowercased) name and plain-text media type. -/
theorem standards_language_resolution (fs : FS) (uri name : String) :
    (∀ t, fs.read (standardsFilePath (toLowerStr name)) = some t →
      standardsHandler fs uri (.str name) =
        [{ uri := uri, text := t, mimeType := some "text/markdown" }]) ∧
    (fs.read (standardsFilePath (toLowerStr name)) = none →
      standardsHandler fs uri (.str name) =
        [{ uri := uri,
           text := "No specific coding standards found for '" ++ name ++ "'.",
           mimeType := some "text/plain" }]) := by
  constructor
  · intro t ht
    simp [standardsHandler, captureFirst, ht]
  · intro hn
    simp [standardsHandler, captureFirst, hn]

/-- C1 witness: Go resolves case-insensitively to standards/go.md, and a
    missing language yields the plain-text not-found sentence. -/
theorem standards_language_resolution_witness :
    standardsHandler goFs "standards://language/Go" (.str "Go") =
      [{ uri := "standards://language/Go", text := "# Go Standards",
         mimeType := some "text/markdown" }] ∧
    standardsHandler emptyFs "standards://language/Nonexistent" (.str "Nonexistent") =
      [{ uri := "standards://language/Nonexistent",
         text := "No specific coding standards found for 'Nonexistent'.",
         mimeType := some "text/plain" }] :=
  ⟨(standards_language_resolution goFs "standards://language/Go" "Go").1
      "# Go Standards" (by decide),
   (standards_language_resolution emptyFs "standards://language/Nonexistent"
      "Nonexistent").2 (by decide)⟩

/-- C2 counterexample: the claimed purely literal substitution is false of
    the program, because String.prototype.replace expands dollar patterns in
    the replacement string. With initialContent a dollar-dollar pair the
    program inserts a single dollar sign where the claim requires the
    initialContent verbatim with no other differences from the template. -/
theorem generate_prp_literal_counterexample :
    generatePrp prpFs "$$" = some [{ role := "user", text := "Goal: $\nDone." }] ∧
    generatePrp prpFs "$$" ≠ some [{ role := "user", text := "Goal: $$\nDone." }] := by
  constructor <;> decide

/-- C2 amended: generate-prp loads the base template and performs a single
    first-occurrence replacement of the fixed placeholder phrase with the
    GetSubstitution expansion of initialContent (dollar-dollar inserts a
    dollar sign, dollar-ampersand the matched phrase, dollar-backquote the
    text before the match, dollar-quote the text after; everything else is
    verbatim), wrapped in one user-role message; when initialContent
    contains no dollar sign the replacement is literal and leaves every
    character outside the placeholder unchanged, and when the phrase is
    absent the template is returned unmodified. -/
theorem generate_prp_getsubstitution (fs : FS) (ic tpl : String)
    (hread : fs.read prpTemplatePath = some tpl) :
    generatePrp fs ic =
      some [{ role := "user", text := replaceFirst tpl placeholderPhrase ic }] ∧
    (∀ a b : List Char, tpl.data = a ++ (placeholderPhrase.data ++ b) →
      (∀ j, j < a.length →
        placeholderPhrase.data.isPrefixOf (tpl.data.drop j) = false) →
      (replaceFirst tpl placeholderPhrase ic).data =
        a ++ (getSubstitution placeholderPhrase.data a b ic.data ++ b) ∧
      ((∀ x ∈ ic.data, x ≠ '$') →
        (replaceFirst tpl placeholderPhrase ic).data = a ++ (ic.data ++ b))) ∧
    (containsSub placeholderPhrase.data tpl.data = false →
      replaceFirst tpl placeholderPhrase ic = tpl) := by
  refine ⟨by simp [generatePrp, hread], ?_, ?_⟩
  · intro a b hsplit hfirst
    rw [hsplit] at hfirst
    have key : (replaceFirst tpl placeholderPhrase ic).data =
        a ++ (getSubstitution placeholderPhrase.data a b ic.data ++ b) := by
      show replaceFirstFrom placeholderPhrase.data ic.data [] tpl.data =
        a ++ (getSubstitution placeholderPhrase.data a b ic.data ++ b)
      rw [hsplit]
      have := replaceFirstFrom_first_occ placeholderPhrase.data ic.data a b [] hfirst
      simpa using this
    refine ⟨key, ?_⟩
    intro hnd
    rw [key, getSubstitution_no_dollar placeholderPhrase.data a b ic.data hnd]
  · intro hnc
    show (⟨replaceFirstFrom placeholderPhrase.data ic.data [] tpl.data⟩ : String) = tpl
    rw [replaceFirstFrom_not_contains placeholderPhrase.data ic.data tpl.data [] hnc]

/-- C2 witness: a dollar-free initialContent replaces the placeholder phrase
    in a concrete template literally, the rest of the template
    byte-identical. -/
theorem generate_prp_getsubstitution_witness :
    generatePrp prpFs "Build a login page" =
      some [{ role := "user", text := "Goal: Build a login page\nDone." }] := by
  rw [(generate_prp_getsubstitution prpFs "Build a login page"
    "Goal: [What needs to be built - be specific about the end state and desires]\nDone."
    (by decide)).1]
  decide

/-- C3 counterexample: the greeting://{name} handler does not take the first
    value of a multi-value capture; it interpolates the whole comma-joined
    sequence, so its output on the sequence [a, b] differs from its output
    on the single value a. -/
theorem templated_first_value_counterexample :
    greetingHandler "greeting://a" (.arr "a" ["b"]) ≠
      greetingHandler "greeting://a" (.str "a") := by decide

/-- C3 amended: only the standards://language/{languageName} handler
    normalizes a multi-value capture to its first value; the greeting
    handler interpolates the whole comma-joined sequence, and the examples
    handler does not normalize at all (a multi-value capture never matches
    the list token and the subsequent path join fails the request). -/
theorem templated_first_value_amended (fs : FS) (uri hd : String) (tl : List String) :
    standardsHandler fs uri (.arr hd tl) = standardsHandler fs uri (.str hd) ∧
    greetingHandler uri (.arr hd tl) =
      [{ uri := uri,
         text := "Hello, " ++ String.intercalate "," (hd :: tl) ++
           "! This is your personal MCP server.",
         mimeType := none }] ∧
    examplesHandler fs uri (.arr hd tl) = none :=
  ⟨rfl, rfl, rfl⟩

/-- C4: examples://list returns a markdown bullet list with exactly one
    bullet per directory entry, in enumeration order. -/
theorem examples_list_directory (fs : FS) (uri : String) (files : List String)
    (hdir : fs.readdir examplesDir = some files) :
    examplesHandler fs uri (.str "list") =
      some [{ uri := uri,
              text := "Available examples:\n" ++
                String.intercalate "\n" (files.map (fun file => "- " ++ file)),
              mimeType := some "text/markdown" }] ∧
    (files.map (fun file => "- " ++ file)).length = files.length ∧
    (∀ i : Fin files.length,
      (files.map (fun file => "- " ++ file)).get
          (Fin.cast (files.length_map (fun file => "- " ++ file)).symm i) =
        "- " ++ files.get i) := by
  refine ⟨by simp [examplesHandler, hdir], by simp, ?_⟩
  intro i
  simp

/-- C4 witness: a concrete two-entry directory is rendered as two bullets in
    enumeration order. -/
theorem examples_list_directory_witness :
    examplesHandler listFs "examples://list" (.str "list") =
      some [{ uri := "examples://list",
              text := "Available examples:\n- a.md\n- b.md",
              mimeType := some "text/markdown" }] := by
  rw [(examples_list_directory listFs "examples://list" ["a.md", "b.md"]
    (by decide)).1]
  decide

/-- C5: the fixed-path resources rules://claude.md and
    templates://prp_base.md have no fallback: a failed read of their fixed
    file escapes the handler as an error (no partial result), and a
    successful read returns exactly the file text. -/
theorem fixed_path_fatal (fs : FS) (uri : String) :
    (fs.read claudeMdPath = none → claudeRulesHandler fs uri = none) ∧
    (∀ t, fs.read claudeMdPath = some t →
      claudeRulesHandler fs uri = some [{ uri := uri, text := t, mimeType := none }]) ∧
    (fs.read prpTemplatePath = none → prpBaseHandler fs uri = none) ∧
    (∀ t, fs.read prpTemplatePath = some t →
      prpBaseHandler fs uri = some [{ uri := uri, text := t, mimeType := none }]) := by
  refine ⟨?_, ?_, ?_, ?_⟩
  · intro h; simp [claudeRulesHandler, h]
  · intro t h; simp [claudeRulesHandler, h]
  · intro h; simp [prpBaseHandler, h]
  · intro t h; simp [prpBaseHandler, h]

/-- C5 witness: both fixed-path handlers fail outright on a file system
    where the file is unreadable, and return the file text where it
    exists. -/
theorem fixed_path_fatal_witness :
    claudeRulesHandler emptyFs "rules://claude.md" = none ∧
    prpBaseHandler emptyFs "templates://prp_base.md" = none ∧
    claudeRulesHandler noPhraseFs "rules://claude.md" =
      some [{ uri := "rules://claude.md", text := "# Claude Rules", mimeType := none }] ∧
    prpBaseHandler noPhraseFs "templates://prp_base.md" =
      some [{ uri := "templates://prp_base.md",
              text := "A template without the phrase.", mimeType := none }] :=
  ⟨(fixed_path_fatal emptyFs "rules://claude.md").1 rfl,
   (fixed_path_fatal emptyFs "templates://prp_base.md").2.2.1 rfl,
   (fixed_path_fatal noPhraseFs "rules://claude.md").2.1 "# Claude Rules" (by decide),
   (fixed_path_fatal noPhraseFs "templates://prp_base.md").2.2.2
     "A template without the phrase." (by decide)⟩

/-- C6: an unhandled exception in POST /mcp handling yields the fixed
    500 envelope with code -32603, message Internal server error and null
    id when no response bytes were sent, and is suppressed with no envelope
    once headers are committed. -/
theorem post_unhandled_exception (e : Unit) :
    handlePost (.error e) false =
      .errorEnvelope 500 "2.0" (-32603) "Internal server error" true ∧
    handlePost (.error e) true = .suppressed :=
  ⟨rfl, rfl⟩

/-- C7: GET and DELETE on the endpoint always answer the fixed 405 error
    envelope with code -32000 and message Method not allowed, never a
    success. -/
theorem method_not_allowed_get_delete (req : Unit) :
    handleGetMcp req = .rpcError 405 (-32000) "Method not allowed." true ∧
    handleDeleteMcp req = .rpcError 405 (-32000) "Method not allowed." true ∧
    (∀ status body, handleGetMcp req ≠ .success status body) ∧
    (∀ status body, handleDeleteMcp req ≠ .success status body) := by
  refine ⟨rfl, rfl, ?_, ?_⟩ <;> intro status body <;> simp [handleGetMcp, handleDeleteMcp]

/-- C8: handling is deterministic and stateless: the same request issued
    twice against an unchanged file system, each time through a freshly
    constructed server, produces identical responses. -/
theorem stateless_idempotent_dispatch (fs : FS) (req : McpRequest) :
    handleSequential fs req req = (handleOne fs req, handleOne fs req) ∧
    (handleSequential fs req req).1 = (handleSequential fs req req).2 :=
  ⟨rfl, rfl⟩

/-- C9: the standards and examples handlers join the caller-supplied name
    onto the base directory with no containment check, so a name with
    dot-dot segments resolves outside the intended base directory and is
    still read and served. -/
theorem path_traversal_escape :
    (∃ name : String,
      (splitSlash name).contains ".." = true ∧
      List.isPrefixOf (cwd ++ ["standards"]) (standardsFilePath (toLowerStr name)) = false ∧
      standardsHandler travFs "standards://language/x" (.str name) =
        [{ uri := "standards://language/x", text := "TOP SECRET",
           mimeType := some "text/markdown" }]) ∧
    (∃ name : String,
      (splitSlash name).contains ".." = true ∧
      List.isPrefixOf examplesDir (joinPath examplesDir name) = false ∧
      examplesHandler travFs "examples://x" (.str name) =
        some [{ uri := "examples://x", text := "EXAMPLE SECRET",
                mimeType := some "text/plain" }]) := by
  refine ⟨⟨"../secret", ?_, ?_, ?_⟩, ⟨"../esecret", ?_, ?_, ?_⟩⟩ <;> decide

/-- C10: a successful example read (name other than the list token) is
    always labeled text/plain, never the markdown default. -/
theorem examples_read_plain_text (fs : FS) (uri name content : String)
    (hname : name ≠ "list") (hread : fs.read (joinPath examplesDir name) = some content) :
    examplesHandler fs uri (.str name) =
      some [{ uri := uri, text := content, mimeType := some "text/plain" }] := by
  simp [examplesHandler, hname, hread]

/-- C10 witness: a concrete example file is served with the plain-text
    media type. -/
theorem examples_read_plain_text_witness :
    examplesHandler listFs "examples://demo.ts" (.str "demo.ts") =
      some [{ uri := "examples://demo.ts", text := "export const x = 1",
              mimeType := some "text/plain" }] :=
  examples_read_plain_text listFs "examples://demo.ts" "demo.ts" "export const x = 1"
    (by decide) (by decide)
